import Mathlib

/-!
Verification of the VirtualTrader portfolio engine and the Backtester
(files ai_trader.py and backtester.py of the birzhAIbot repository).

The Python code is shallowly embedded: currency amounts and prices are
exact rationals, share counts are naturals, Python dicts become ordered
association lists with dict semantics (update in place, insert at the
end, delete removes the entry), and datetime values become an explicit
Timestamp type that records whether the value is still a datetime or has
been turned into a string by JSON serialization with default=str.
-/

namespace Trader

/-! ### Association lists with Python dict semantics -/

/-- Lookup of a key, first match (dict keys are unique). -/
def getAssoc {α : Type} : List (String × α) → String → Option α
  | [], _ => none
  | (k1, v) :: rest, k => if k1 = k then some v else getAssoc rest k

/-- Assignment d[k] = v: replaces the value in place if the key exists,
otherwise appends the new entry at the end (insertion order preserved,
as for Python dicts). -/
def updAssoc {α : Type} : List (String × α) → String → α → List (String × α)
  | [], k, v => [(k, v)]
  | (k1, v1) :: rest, k, v =>
      if k1 = k then (k, v) :: rest else (k1, v1) :: updAssoc rest k v

/-- Deletion del d[k] (or d.pop(k, None)): removes the entry. -/
def delAssoc {α : Type} : List (String × α) → String → List (String × α)
  | [], _ => []
  | (k1, v1) :: rest, k =>
      if k1 = k then rest else (k1, v1) :: delAssoc rest k

theorem getAssoc_updAssoc_self {α : Type} (m : List (String × α)) (k : String) (v : α) :
    getAssoc (updAssoc m k v) k = some v := by
  induction m with
  | nil => simp [getAssoc, updAssoc]
  | cons hd tl ih =>
      obtain ⟨k1, v1⟩ := hd
      by_cases h : k1 = k
      · simp [getAssoc, updAssoc, h]
      · simp [getAssoc, updAssoc, h, ih]

theorem getAssoc_delAssoc_self {α : Type} (m : List (String × α)) (k : String)
    (hnd : (m.map Prod.fst).Nodup) : getAssoc (delAssoc m k) k = none := by
  induction m with
  | nil => simp [delAssoc, getAssoc]
  | cons hd tl ih =>
      obtain ⟨k1, v1⟩ := hd
      simp only [List.map_cons, List.nodup_cons] at hnd
      by_cases h : k1 = k
      · subst h
        simp only [delAssoc, if_pos rfl]
        clear ih
        induction tl with
        | nil => simp [getAssoc]
        | cons hd2 tl2 ih2 =>
            obtain ⟨k2, v2⟩ := hd2
            simp only [List.map_cons, List.mem_cons, List.nodup_cons] at hnd
            have hne : k2 ≠ k1 := fun he => hnd.1 (Or.inl he.symm)
            simp only [getAssoc, if_neg hne]
            exact ih2 ⟨fun hm => hnd.1 (Or.inr hm), hnd.2.2⟩
      · simp only [delAssoc, if_neg h, getAssoc, if_neg h]
        exact ih hnd.2

/-! ### Timestamps

datetime.now() produces a datetime object; json.dump(..., default=str)
turns it into str(datetime); json.load leaves such strings as strings. -/

structure DateTime where
  year : Nat
  month : Nat
  day : Nat
  hour : Nat
  minute : Nat
  second : Nat
  micro : Nat
deriving DecidableEq, Repr

def pad2 (n : Nat) : String := if n < 10 then "0" ++ toString n else toString n

/-- str(datetime): "YYYY-MM-DD HH:MM:SS.ffffff" (naive local time). -/
def dtStr (d : DateTime) : String :=
  toString d.year ++ "-" ++ pad2 d.month ++ "-" ++ pad2 d.day ++ " " ++
    pad2 d.hour ++ ":" ++ pad2 d.minute ++ ":" ++ pad2 d.second ++
    (if d.micro = 0 then "" else "." ++ toString d.micro)

/-- A timestamp field is either still a datetime object or a string
(after a JSON round trip through default=str). -/
inductive Timestamp where
  | dt (d : DateTime)
  | str (s : String)
deriving DecidableEq, Repr

/-- What json.dump(..., default=str) does to a timestamp field. -/
def tsSerialize : Timestamp → Timestamp
  | .dt d => .str (dtStr d)
  | .str s => .str s

/-! ### Data model -/

structure Position where
  shares : Nat
  avg_price : ℚ
deriving DecidableEq, Repr

/-- A trade record; amount is cost for BUY and revenue for SELL;
profit and reason are present only on SELL records. -/
structure Trade where
  timestamp : Timestamp
  ticker : String
  action : String
  shares : Nat
  price : ℚ
  amount : ℚ
  fee : ℚ
  profit : Option ℚ
  confidence : ℚ
  balance_after : ℚ
  reason : Option String
deriving DecidableEq, Repr

structure PosSummary where
  ticker : String
  shares : Nat
  avg_price : ℚ
  current_price : ℚ
  current_value : ℚ
  profit : ℚ
  profit_percent : ℚ
deriving DecidableEq, Repr

structure PerfSnapshot where
  balance : ℚ
  total_value : ℚ
  invested : ℚ
  positions : List PosSummary
  total_profit : ℚ
  total_profit_percent : ℚ
  position_count : Nat
  timestamp : Timestamp
deriving DecidableEq, Repr

structure TraderState where
  initial_balance : ℚ
  balance : ℚ
  portfolio : List (String × Position)
  trades : List Trade
  performance_history : List PerfSnapshot
  highest_price : List (String × ℚ)
  is_trading : Bool
deriving DecidableEq, Repr

/-- The current-price map the stock provider returns for this cycle. -/
abbrev Prices := List (String × ℚ)

/-! ### Configuration constants of VirtualTrader.__init__ -/

def max_position_size : ℚ := 45 / 100
def min_confidence : ℚ := 1 / 2
def trade_fee : ℚ := 3 / 1000
def use_trailing_stop : Bool := true
def trailing_stop_pct : ℚ := 5
def sell_rsi_overbought : ℚ := 80
def sell_rsi_fraction : ℚ := 3 / 10
def sell_ma5_break : Bool := true
def sell_ma5_fraction : ℚ := 4 / 10
def sell_ma20_break : Bool := true

/-! ### get_portfolio_value -/

/-- get_portfolio_value: balance plus market value of every position
whose ticker has a current price. -/
def get_portfolio_value (st : TraderState) (prices : Prices) : ℚ :=
  st.portfolio.foldl
    (fun acc tp =>
      match getAssoc prices tp.1 with
      | some p => acc + (tp.2.shares : ℚ) * p
      | none => acc)
    st.balance

/-! ### The _buy operation -/

/-- Shares currently held for a ticker (0 when no position). -/
def held (st : TraderState) (ticker : String) : Nat :=
  ((getAssoc st.portfolio ticker).map Position.shares).getD 0

/-- The available amount in _buy:
min(max_amount or balance*0.3*confidence, max_allowed, balance). -/
def buy_available (st : TraderState) (prices : Prices) (ticker : String)
    (price confidence : ℚ) (max_amount : Option ℚ) : ℚ :=
  let current_value := get_portfolio_value st prices
  let max_position_value := current_value * max_position_size
  let current_position_value := (held st ticker : ℚ) * price
  let available0 :=
    match max_amount with
    | none => st.balance * (3 / 10) * confidence
    | some a => a
  min (min available0 (max_position_value - current_position_value)) st.balance

/-- Share sizing in _buy: shares = int(available/price); if
cost + fee > balance then shares = int(balance*0.9/price). -/
def buyFinalShares (balance available price : ℚ) : Nat :=
  if balance < (⌊available / price⌋₊ : ℚ) * price +
      (⌊available / price⌋₊ : ℚ) * price * trade_fee then
    ⌊balance * (9 / 10) / price⌋₊
  else
    ⌊available / price⌋₊

/-- The committed part of _buy (lines 337-360): deduct cost+fee from the
balance, update the position with the weighted average (the fee is not
part of the cost basis), and append the BUY trade record. -/
def buyCommit (st : TraderState) (now : Timestamp) (ticker : String)
    (price confidence : ℚ) (shares : Nat) (cost fee : ℚ) : TraderState :=
  let balance1 := st.balance - (cost + fee)
  let portfolio1 :=
    match getAssoc st.portfolio ticker with
    | some pos =>
        let new_shares := pos.shares + shares
        let new_avg_price := ((pos.shares : ℚ) * pos.avg_price + cost) / (new_shares : ℚ)
        updAssoc st.portfolio ticker ⟨new_shares, new_avg_price⟩
    | none => updAssoc st.portfolio ticker ⟨shares, price⟩
  let trade : Trade :=
    { timestamp := now, ticker := ticker, action := "BUY", shares := shares,
      price := price, amount := cost, fee := fee, profit := none,
      confidence := confidence, balance_after := balance1, reason := none }
  { st with
    balance := balance1
    portfolio := portfolio1
    trades := st.trades ++ [trade] }

/-- _buy(ticker, price, confidence, max_amount). -/
def buy (st : TraderState) (prices : Prices) (now : Timestamp) (ticker : String)
    (price confidence : ℚ) (max_amount : Option ℚ) : TraderState :=
  if get_portfolio_value st prices * max_position_size ≤ (held st ticker : ℚ) * price then
    st
  else if buy_available st prices ticker price confidence max_amount < price * 10 then
    st
  else if buyFinalShares st.balance (buy_available st prices ticker price confidence max_amount) price = 0 then
    st
  else
    let s := buyFinalShares st.balance (buy_available st prices ticker price confidence max_amount) price
    buyCommit st now ticker price confidence s ((s : ℚ) * price) ((s : ℚ) * price * trade_fee)

/-! ### The _sell operation -/

/-- Resolution of the number of shares to sell in _sell. -/
def sellSharesResolved (total : Nat) (confidence : ℚ) (shares : Option Nat)
    (sell_all : Bool) : Nat :=
  if sell_all then total
  else
    match shares with
    | some s => min s total
    | none =>
        if 9 / 10 < confidence then total
        else if 7 / 10 < confidence then ⌊(total : ℚ) * (7 / 10)⌋₊
        else ⌊(total : ℚ) * (1 / 2)⌋₊

/-- The committed part of _sell: credit revenue - fee, delete the
position (and its high-water mark) on a full exit or decrement shares,
and append the SELL trade record. -/
def sellCommit (st : TraderState) (now : Timestamp) (ticker : String)
    (price confidence : ℚ) (reason : String) (pos : Position) (ss : Nat) : TraderState :=
  let revenue := (ss : ℚ) * price
  let fee := revenue * trade_fee
  let balance1 := st.balance + (revenue - fee)
  let trade : Trade :=
    { timestamp := now, ticker := ticker, action := "SELL", shares := ss,
      price := price, amount := revenue, fee := fee,
      profit := some ((price - pos.avg_price) * (ss : ℚ)),
      confidence := confidence, balance_after := balance1, reason := some reason }
  { st with
    balance := balance1
    portfolio :=
      if pos.shares ≤ ss then delAssoc st.portfolio ticker
      else updAssoc st.portfolio ticker ⟨pos.shares - ss, pos.avg_price⟩
    highest_price :=
      if pos.shares ≤ ss then delAssoc st.highest_price ticker
      else st.highest_price
    trades := st.trades ++ [trade] }

/-- _sell(ticker, price, confidence, reason, shares, sell_all). -/
def sell (st : TraderState) (now : Timestamp) (ticker : String)
    (price confidence : ℚ) (reason : String) (shares : Option Nat)
    (sell_all : Bool) : TraderState :=
  match getAssoc st.portfolio ticker with
  | none => st
  | some pos =>
      if sellSharesResolved pos.shares confidence shares sell_all = 0 then st
      else sellCommit st now ticker price confidence reason pos
        (sellSharesResolved pos.shares confidence shares sell_all)

/-! ### Indicators and technical filters

The last row of the history DataFrame per ticker: each indicator column
may individually be NaN, modelled as an Option field; a ticker with no
usable history at all (get_history_df returning None or an empty frame)
is modelled as the history environment returning none. -/

structure IndRow where
  ma5 : Option ℚ
  ma20 : Option ℚ
  rsi : Option ℚ
deriving DecidableEq, Repr

abbrev HistEnv := String → Option IndRow

/-- _check_technical_filters: allowed iff RSI is available and < 70;
returns (allow, tech_conf). -/
def check_technical_filters (hist : HistEnv) (ticker : String) : Bool × ℚ :=
  match hist ticker with
  | none => (false, 0)
  | some row =>
      match row.rsi with
      | none => (false, 0)
      | some rsi => if rsi < 70 then (true, 1) else (false, 0)

/-! ### _check_positions exit rules -/

/-- MA5-break partial exit: sell int(shares0 * 0.4) shares, where
shares0 is the share count captured when the ticker evaluation began. -/
def ma5Rule (st : TraderState) (now : Timestamp) (ticker : String)
    (price : ℚ) (shares0 : Nat) (ma5 : ℚ) : TraderState :=
  if sell_ma5_break = true ∧ price < ma5 then
    if 0 < ⌊(shares0 : ℚ) * sell_ma5_fraction⌋₊ then
      sell st now ticker price (8 / 10) "ma5_break"
        (some ⌊(shares0 : ℚ) * sell_ma5_fraction⌋₊) false
    else st
  else st

/-- RSI-overbought partial exit: sell int(shares0 * 0.3) shares, again
from the share count captured at the start of the ticker evaluation. -/
def rsiRule (st : TraderState) (now : Timestamp) (ticker : String)
    (price : ℚ) (shares0 : Nat) (rsi : ℚ) : TraderState :=
  if sell_rsi_overbought < rsi then
    if 0 < ⌊(shares0 : ℚ) * sell_rsi_fraction⌋₊ then
      sell st now ticker price (7 / 10) "rsi_overbought"
        (some ⌊(shares0 : ℚ) * sell_rsi_fraction⌋₊) false
    else st
  else st

/-- Static stop-loss: full exit when the loss exceeds 5 percent of the
average price captured at the start of the ticker evaluation. -/
def stopLossRule (st : TraderState) (now : Timestamp) (ticker : String)
    (price avg0 : ℚ) : TraderState :=
  if (price - avg0) / avg0 * 100 < -5 then
    sell st now ticker price 1 "stop_loss" none true
  else st

/-- Trailing stop followed by the static stop-loss: update the
high-water mark, full exit when the price retreated 5 percent from it
(the stop-loss is then not checked), otherwise check the stop-loss. -/
def trailingAndStop (st : TraderState) (now : Timestamp) (ticker : String)
    (price avg0 : ℚ) : TraderState :=
  if use_trailing_stop = true then
    let hw :=
      match getAssoc st.highest_price ticker with
      | none => price
      | some h => max h price
    let st1 := { st with highest_price := updAssoc st.highest_price ticker hw }
    if price ≤ hw * (1 - trailing_stop_pct / 100) then
      sell st1 now ticker price 1 "trailing_stop" none true
    else stopLossRule st1 now ticker price avg0
  else stopLossRule st now ticker price avg0

/-- One iteration of the _check_positions loop for one ticker: skip when
the ticker has no position or no usable indicators; a MA20 break sells
everything and skips all remaining rules; otherwise MA5 break, RSI
overbought, trailing stop and stop-loss run in that order. -/
def checkTicker (st : TraderState) (now : Timestamp) (hist : HistEnv)
    (ticker : String) (price : ℚ) : TraderState :=
  match getAssoc st.portfolio ticker with
  | none => st
  | some pos =>
      match hist ticker with
      | none => st
      | some row =>
          match row.ma5, row.ma20, row.rsi with
          | some ma5, some ma20, some rsi =>
              if sell_ma20_break = true ∧ price < ma20 then
                sell st now ticker price 1 "ma20_break" none true
              else
                trailingAndStop
                  (rsiRule (ma5Rule st now ticker price pos.shares ma5)
                    now ticker price pos.shares rsi)
                  now ticker price pos.avg_price
          | _, _, _ => st

/-- _check_positions: iterate over a snapshot of the portfolio tickers,
skipping tickers without a current price. -/
def check_positions (st : TraderState) (now : Timestamp) (hist : HistEnv)
    (prices : Prices) : TraderState :=
  (st.portfolio.map Prod.fst).foldl
    (fun s t =>
      match getAssoc prices t with
      | none => s
      | some p => checkTicker s now hist t p)
    st

/-! ### _execute_trades -/

structure Pick where
  ticker : String
  action : String
  confidence : ℚ
deriving DecidableEq, Repr

/-- The recommendation object returned by the AI advisor. -/
structure Analysis where
  top_picks : List Pick
  top_pick : Option String
  action : Option String
  confidence : ℚ
deriving DecidableEq, Repr

structure Cand where
  ticker : String
  confidence : ℚ
  action : String
deriving DecidableEq, Repr

/-- Candidate collection: up to 7 picks with action BUY or HOLD and an
available price, then the main recommendation appended when it is a
nonempty BUY/HOLD ticker with a price that is not already present. -/
def buildCandidates (analysis : Analysis) (prices : Prices) : List Cand :=
  let base := (analysis.top_picks.take 7).foldl
    (fun acc pick =>
      if (pick.action = "BUY" ∨ pick.action = "HOLD") ∧
          (getAssoc prices pick.ticker).isSome = true then
        acc ++ [⟨pick.ticker, pick.confidence, pick.action⟩]
      else acc)
    []
  match analysis.top_pick, analysis.action with
  | some mt, some ma =>
      if (ma = "BUY" ∨ ma = "HOLD") ∧ mt ≠ "" ∧
          (getAssoc prices mt).isSome = true ∧ (∀ c ∈ base, c.ticker ≠ mt) then
        base ++ [⟨mt, analysis.confidence, ma⟩]
      else base
  | _, _ => base

/-- Stable insertion keeping a descending order on the key; an element
is placed behind existing elements with an equal key, which gives the
same result as Python's stable sort with reverse=True. -/
def insertDescBy {α : Type} (key : α → ℚ) (x : α) : List α → List α
  | [] => [x]
  | y :: ys => if key y < key x then x :: y :: ys else y :: insertDescBy key x ys

def sortDescBy {α : Type} (key : α → ℚ) (l : List α) : List α :=
  l.foldl (fun acc x => insertDescBy key x acc) []

/-- The body of the buy loop of _execute_trades for one candidate. -/
def buyLoopStep (prices : Prices) (now : Timestamp) (hist : HistEnv)
    (invest_capital total_conf_buy : ℚ) (s : TraderState) (c : Cand) : TraderState :=
  match getAssoc prices c.ticker with
  | none => s
  | some price =>
      let tc := check_technical_filters hist c.ticker
      if tc.1 = false then s
      else
        let adj_conf := (c.confidence + tc.2) / 2
        let share := if total_conf_buy = 0 then 0 else c.confidence / total_conf_buy
        let base_amount := invest_capital * share
        let amount := if 0 < c.confidence then base_amount * (adj_conf / c.confidence)
          else base_amount
        buy s prices now c.ticker price adj_conf (some amount)

/-- The body of the hold (reinforcement) loop of _execute_trades. -/
def holdLoopStep (prices : Prices) (now : Timestamp) (hist : HistEnv)
    (hold_budget total_conf_hold : ℚ) (s : TraderState) (c : Cand) : TraderState :=
  match getAssoc s.portfolio c.ticker with
  | none => s
  | some _ =>
      match getAssoc prices c.ticker with
      | none => s
      | some price =>
          let tc := check_technical_filters hist c.ticker
          if tc.1 = false then s
          else
            let adj_conf := (c.confidence + tc.2) / 2
            let share := if total_conf_hold = 0 then 0 else c.confidence / total_conf_hold
            let base_amount := hold_budget * share
            let amount := if 0 < c.confidence then base_amount * (adj_conf / c.confidence)
              else base_amount
            buy s prices now c.ticker price adj_conf (some amount)

/-- _execute_trades: return immediately when there are no prices, no
candidates, or invest capital below 1000; otherwise run the buy loop,
the hold loop and finally _check_positions. -/
def execute_trades (st : TraderState) (now : Timestamp) (hist : HistEnv)
    (analysis : Analysis) (prices : Prices) : TraderState :=
  if prices = [] then st
  else if buildCandidates analysis prices = [] then st
  else
    let candidates := (sortDescBy Cand.confidence (buildCandidates analysis prices)).take 7
    let buy_candidates := candidates.filter
      (fun c => c.action == "BUY" && decide (min_confidence ≤ c.confidence))
    let hold_candidates := candidates.filter
      (fun c => c.action == "HOLD" && decide ((8 : ℚ) / 10 ≤ c.confidence))
    let total_conf_buy := (buy_candidates.map Cand.confidence).sum
    let total_conf_hold := (hold_candidates.map Cand.confidence).sum
    let invest_capital := st.balance * (8 / 10)
    if invest_capital < 1000 then st
    else
      let st1 := buy_candidates.foldl
        (buyLoopStep prices now hist invest_capital total_conf_buy) st
      let st2 := hold_candidates.foldl
        (holdLoopStep prices now hist (invest_capital * (2 / 10)) total_conf_hold) st1
      check_positions st2 now hist prices

/-! ### Portfolio summary, performance history, the trading cycle -/

/-- get_portfolio_summary; the timestamp field is the one that
_update_performance adds to the summary dict before appending it. -/
def get_portfolio_summary (st : TraderState) (prices : Prices) (now : Timestamp) :
    PerfSnapshot :=
  let acc := st.portfolio.foldl
    (fun (acc : ℚ × List PosSummary) tp =>
      match getAssoc prices tp.1 with
      | none => acc
      | some current_price =>
          let current_value := (tp.2.shares : ℚ) * current_price
          let invested := (tp.2.shares : ℚ) * tp.2.avg_price
          let profit := current_value - invested
          let profit_percent := if invested = 0 then 0 else profit / invested * 100
          (acc.1 + current_value,
            acc.2 ++ [⟨tp.1, tp.2.shares, tp.2.avg_price, current_price,
              current_value, profit, profit_percent⟩]))
    (st.balance, [])
  let positions := sortDescBy PosSummary.current_value acc.2
  let total_profit := acc.1 - st.initial_balance
  { balance := st.balance, total_value := acc.1, invested := acc.1 - st.balance,
    positions := positions, total_profit := total_profit,
    total_profit_percent := total_profit / st.initial_balance * 100,
    position_count := positions.length, timestamp := now }

/-- Last n entries of a list (Python l[-n:]). -/
def takeLast {α : Type} (n : Nat) (l : List α) : List α :=
  l.drop (l.length - n)

/-- _update_performance: append the summary and keep the last 100. -/
def update_performance (st : TraderState) (prices : Prices) (now : Timestamp) :
    TraderState :=
  let ph := st.performance_history ++ [get_portfolio_summary st prices now]
  { st with performance_history := if 100 < ph.length then takeLast 100 ph else ph }

/-- analyze_and_trade: return when trading is off, else run
_execute_trades and then _update_performance. -/
def analyze_and_trade (st : TraderState) (now : Timestamp) (hist : HistEnv)
    (analysis : Analysis) (prices : Prices) : TraderState :=
  if st.is_trading = false then st
  else update_performance (execute_trades st now hist analysis prices) prices now

/-! ### Persistence: _save_state and _load_state -/

/-- The JSON document data/trader_state.json. json.dump(..., default=str)
keeps numbers, booleans, strings, lists and dicts, and renders every
datetime value with str(). -/
structure StateDoc where
  balance : ℚ
  portfolio : List (String × Position)
  trades : List Trade
  performance_history : List PerfSnapshot
  last_save : String
  is_trading : Bool
deriving DecidableEq, Repr

def serializeTrade (t : Trade) : Trade :=
  { t with timestamp := tsSerialize t.timestamp }

def serializeSnap (s : PerfSnapshot) : PerfSnapshot :=
  { s with timestamp := tsSerialize s.timestamp }

/-- _save_state: last 100 trades, last 50 snapshots, datetimes turned
into strings by default=str. -/
def save_state (st : TraderState) (now : Timestamp) : StateDoc :=
  { balance := st.balance
    portfolio := st.portfolio
    trades := (takeLast 100 st.trades).map serializeTrade
    performance_history := (takeLast 50 st.performance_history).map serializeSnap
    last_save :=
      match tsSerialize now with
      | .str s => s
      | .dt _ => ""
    is_trading := st.is_trading }

/-- The fresh in-memory state that __init__ builds before _load_state
runs (is_trading is set to True at line 49). -/
def freshState (initial_balance : ℚ) : TraderState :=
  { initial_balance := initial_balance, balance := initial_balance,
    portfolio := [], trades := [], performance_history := [],
    highest_price := [], is_trading := true }

/-- _load_state: when the file exists and parses, overwrite balance,
portfolio, trades, performance history and the trading flag (the flag
defaults to False); a missing or corrupt file leaves the fresh state. -/
def load_state (initial_balance : ℚ) (doc : Option StateDoc) : TraderState :=
  match doc with
  | none => freshState initial_balance
  | some d =>
      { freshState initial_balance with
        balance := d.balance
        portfolio := d.portfolio
        trades := d.trades
        performance_history := d.performance_history
        is_trading := d.is_trading }

/-- Saving and immediately reloading the state. -/
def round_trip (st : TraderState) (now : Timestamp) : TraderState :=
  load_state st.initial_balance (some (save_state st now))

/-! ### __init__ and start_trading -/

/-- start_trading: set is_trading to True and run an immediate
analyze_and_trade cycle. -/
def start_trading (st : TraderState) (now : Timestamp) (hist : HistEnv)
    (analysis : Analysis) (prices : Prices) : TraderState :=
  analyze_and_trade { st with is_trading := true } now hist analysis prices

/-- VirtualTrader.__init__: build the fresh state, load the persisted
state, then call start_trading. -/
def initTrader (initial_balance : ℚ) (doc : Option StateDoc) (now : Timestamp)
    (hist : HistEnv) (analysis : Analysis) (prices : Prices) : TraderState :=
  start_trading (load_state initial_balance doc) now hist analysis prices

/-! ### Committed operation sequences (for the balance invariant) -/

/-- One committed portfolio operation: a _buy or a _sell call. -/
inductive TradeOp where
  | buyOp (prices : Prices) (now : Timestamp) (ticker : String)
      (price confidence : ℚ) (max_amount : Option ℚ)
  | sellOp (now : Timestamp) (ticker : String) (price confidence : ℚ)
      (reason : String) (shares : Option Nat) (sell_all : Bool)
deriving Repr

def applyOp (st : TraderState) : TradeOp → TraderState
  | .buyOp prices now ticker price confidence max_amount =>
      buy st prices now ticker price confidence max_amount
  | .sellOp now ticker price confidence reason shares sell_all =>
      sell st now ticker price confidence reason shares sell_all

def opPrice : TradeOp → ℚ
  | .buyOp _ _ _ price _ _ => price
  | .sellOp _ _ price _ _ _ _ => price

end Trader

/-! ### The Backtester -/

namespace Backtester

/-- One price bar with its time key and close. -/
structure Bar where
  time : Nat
  close : ℚ
deriving DecidableEq, Repr

structure BtTrade where
  date : Nat
  action : String
  price : ℚ
  shares : Nat
  amount : ℚ
deriving DecidableEq, Repr

/-- The loop state of Backtester.run. -/
structure BtAcc where
  capital : ℚ
  position : Nat
  trades : List BtTrade
  equity_curve : List ℚ
deriving DecidableEq, Repr

/-- One iteration of the bar loop: buy on signal 1 with positive
capital when affordable, sell everything on signal -1 with an open
position, then record the equity point. -/
def btStep (commission : ℚ) (acc : BtAcc) (bs : Bar × Int) : BtAcc :=
  let price := bs.1.close
  let acc1 :=
    if bs.2 = 1 ∧ 0 < acc.capital then
      let shares := ⌊acc.capital * (95 / 100) / price⌋₊
      let cost := (shares : ℚ) * price * (1 + commission)
      if cost ≤ acc.capital then
        { acc with
          position := acc.position + shares
          capital := acc.capital - cost
          trades := acc.trades ++ [⟨bs.1.time, "BUY", price, shares, cost⟩] }
      else acc
    else if bs.2 = -1 ∧ 0 < acc.position then
      let revenue := (acc.position : ℚ) * price * (1 - commission)
      { acc with
        capital := acc.capital + revenue
        trades := acc.trades ++ [⟨bs.1.time, "SELL", price, acc.position, revenue⟩]
        position := 0 }
    else acc
  { acc1 with
    equity_curve := acc1.equity_curve ++ [acc1.capital + (acc1.position : ℚ) * price] }

/-- The bar loop of Backtester.run over the price/signal series (the
signal list is truncated to the length of the price list). -/
def btLoop (initial_capital commission : ℚ) (prices : List Bar)
    (signals : List Int) : BtAcc :=
  (prices.zip signals).foldl (btStep commission) ⟨initial_capital, 0, [], []⟩

/-- The post-loop force close: when a position is still open, sell it
at the last bar's close, commission-adjusted (the code does not reset
the local position variable, which is dead after this point). -/
def btClose (commission : ℚ) (acc : BtAcc) (prices : List Bar) : BtAcc :=
  if 0 < acc.position then
    match prices.getLast? with
    | some b =>
        { acc with
          capital := acc.capital + (acc.position : ℚ) * b.close * (1 - commission)
          trades := acc.trades ++ [⟨b.time, "SELL (close)", b.close, acc.position,
            (acc.position : ℚ) * b.close * (1 - commission)⟩] }
    | none => acc
  else acc

structure BtResult where
  capital : ℚ
  final_equity : ℚ
  total_return : ℚ
  trades : List BtTrade
  equity_curve : List ℚ
deriving DecidableEq, Repr

/-- Backtester.run up to the returned equity statistics (max drawdown
and Sharpe ratio are computed from the equity curve afterwards and are
not claimed about here). -/
def run (initial_capital commission : ℚ) (prices : List Bar)
    (signals : List Int) : BtResult :=
  let acc := btClose commission (btLoop initial_capital commission prices signals) prices
  { capital := acc.capital
    final_equity := acc.capital
    total_return := (acc.capital - initial_capital) / initial_capital * 100
    trades := acc.trades
    equity_curve := acc.equity_curve }

end Backtester

namespace Trader

/-! ### Helper lemmas -/

theorem floor_ma5_frac (s : Nat) : ⌊(s : ℚ) * sell_ma5_fraction⌋₊ = 4 * s / 10 := by
  unfold sell_ma5_fraction
  have h : (s : ℚ) * (4 / 10) = ((4 * s : ℕ) : ℚ) / ((10 : ℕ) : ℚ) := by
    push_cast
    ring
  rw [h, Nat.floor_div_nat, Nat.floor_natCast]

theorem floor_rsi_frac (s : Nat) : ⌊(s : ℚ) * sell_rsi_fraction⌋₊ = 3 * s / 10 := by
  unfold sell_rsi_fraction
  have h : (s : ℚ) * (3 / 10) = ((3 * s : ℕ) : ℚ) / ((10 : ℕ) : ℚ) := by
    push_cast
    ring
  rw [h, Nat.floor_div_nat, Nat.floor_natCast]

/-- A full-exit _sell call on an existing nonempty position commits with
the whole share count. -/
theorem sell_all_eq (st : TraderState) (now : Timestamp) (ticker : String)
    (price confidence : ℚ) (reason : String) (shares : Option Nat) (pos : Position)
    (hlk : getAssoc st.portfolio ticker = some pos) (hs : 0 < pos.shares) :
    sell st now ticker price confidence reason shares true
      = sellCommit st now ticker price confidence reason pos pos.shares := by
  unfold sell
  rw [hlk]
  have hres : sellSharesResolved pos.shares confidence shares true = pos.shares := by
    unfold sellSharesResolved
    simp
  dsimp only
  rw [hres, if_neg hs.ne']

/-- A _sell call with an explicit share count below the held count
commits exactly that count. -/
theorem sell_some_eq (st : TraderState) (now : Timestamp) (ticker : String)
    (price confidence : ℚ) (reason : String) (k : Nat) (pos : Position)
    (hlk : getAssoc st.portfolio ticker = some pos) (hk : 0 < k)
    (hlt : k ≤ pos.shares) :
    sell st now ticker price confidence reason (some k) false
      = sellCommit st now ticker price confidence reason pos k := by
  unfold sell
  rw [hlk]
  have hres : sellSharesResolved pos.shares confidence (some k) false = k := by
    unfold sellSharesResolved
    simp [Nat.min_eq_left hlt]
  dsimp only
  rw [hres, if_neg hk.ne']

/-- The total spend of a committed buy never exceeds the balance: either
the unscaled cost plus fee already fits, or the 0.9-rescaled sizing
spends at most 0.9027 of the balance. -/
theorem buyFinalShares_spend_le (balance available price : ℚ)
    (hp : 0 < price) (hb : 0 ≤ balance) :
    (buyFinalShares balance available price : ℚ) * price +
      (buyFinalShares balance available price : ℚ) * price * trade_fee ≤ balance := by
  unfold buyFinalShares
  split_ifs with h
  · have h1 : ((⌊balance * (9 / 10) / price⌋₊ : ℚ)) ≤ balance * (9 / 10) / price :=
      Nat.floor_le (by positivity)
    have h2 := mul_le_mul_of_nonneg_right h1 hp.le
    rw [div_mul_cancel₀ _ (ne_of_gt hp)] at h2
    have h3 : (0 : ℚ) ≤ (⌊balance * (9 / 10) / price⌋₊ : ℚ) * price := by positivity
    unfold trade_fee
    linarith
  · push_neg at h
    exact h

theorem buy_balance_nonneg (st : TraderState) (prices : Prices) (now : Timestamp)
    (ticker : String) (price confidence : ℚ) (max_amount : Option ℚ)
    (hp : 0 < price) (hb : 0 ≤ st.balance) :
    0 ≤ (buy st prices now ticker price confidence max_amount).balance := by
  unfold buy
  split_ifs with h1 h2 h3
  · exact hb
  · exact hb
  · exact hb
  · simp only [buyCommit]
    have := buyFinalShares_spend_le st.balance
      (buy_available st prices ticker price confidence max_amount) price hp hb
    linarith

theorem sell_balance_nonneg (st : TraderState) (now : Timestamp) (ticker : String)
    (price confidence : ℚ) (reason : String) (shares : Option Nat) (sell_all : Bool)
    (hp : 0 < price) (hb : 0 ≤ st.balance) :
    0 ≤ (sell st now ticker price confidence reason shares sell_all).balance := by
  unfold sell
  cases h : getAssoc st.portfolio ticker with
  | none => exact hb
  | some pos =>
      dsimp only
      by_cases h0 : sellSharesResolved pos.shares confidence shares sell_all = 0
      · rw [if_pos h0]
        exact hb
      · rw [if_neg h0]
        simp only [sellCommit, trade_fee]
        have hrev : (0 : ℚ) ≤
            (sellSharesResolved pos.shares confidence shares sell_all : ℚ) * price := by
          positivity
        linarith

/-- C1: for every sequence of committed Buy and Sell operations starting
from a non-negative balance, with every traded price strictly positive,
the portfolio balance is non-negative after each committed operation:
every prefix of the sequence is itself such a sequence, so the final
balance of every prefix — the balance after each operation — is
non-negative. -/
theorem claim_balance_nonneg_after_ops (st : TraderState) (ops : List TradeOp)
    (hb : 0 ≤ st.balance) (hp : ∀ op ∈ ops, 0 < opPrice op) :
    0 ≤ (ops.foldl applyOp st).balance := by
  induction ops generalizing st with
  | nil => simpa using hb
  | cons op rest ih =>
      simp only [List.foldl_cons]
      apply ih
      · cases op with
        | buyOp prices now ticker price confidence max_amount =>
            exact buy_balance_nonneg st prices now ticker price confidence max_amount
              (hp _ (List.mem_cons_self _ _)) hb
        | sellOp now ticker price confidence reason shares sell_all =>
            exact sell_balance_nonneg st now ticker price confidence reason shares sell_all
              (hp _ (List.mem_cons_self _ _)) hb
      · intro o ho
        exact hp o (List.mem_cons_of_mem _ ho)

def c1Ops : List TradeOp :=
  [.buyOp [("SBER", 250)] (.dt ⟨2025, 6, 1, 10, 0, 0, 0⟩) "SBER" 250 (8 / 10) (some 100000),
   .sellOp (.dt ⟨2025, 6, 1, 11, 0, 0, 0⟩) "SBER" 260 1 "manual" none true]

theorem claim_balance_nonneg_after_ops_witness :
    ((0 : ℚ) ≤ (freshState 1000000).balance ∧ ∀ op ∈ c1Ops, 0 < opPrice op) ∧
      0 ≤ (c1Ops.foldl applyOp (freshState 1000000)).balance :=
  ⟨⟨by decide, by decide⟩,
    claim_balance_nonneg_after_ops (freshState 1000000) c1Ops (by decide) (by decide)⟩

/-- Lookup after a committed buy: first buy of a ticker records the buy
price, a repeat buy records the cost-weighted average. -/
theorem getAssoc_buyCommit_self (st : TraderState) (now : Timestamp) (ticker : String)
    (price confidence : ℚ) (s : Nat) (cost fee : ℚ) :
    getAssoc (buyCommit st now ticker price confidence s cost fee).portfolio ticker
      = match getAssoc st.portfolio ticker with
        | some pos => some ⟨pos.shares + s,
            ((pos.shares : ℚ) * pos.avg_price + cost) / ((pos.shares + s : ℕ) : ℚ)⟩
        | none => some ⟨s, price⟩ := by
  unfold buyCommit
  cases h : getAssoc st.portfolio ticker <;> dsimp only <;>
    exact getAssoc_updAssoc_self _ _ _

/-- C3: buying s1 shares at p1 and then s2 shares at p2 of the same
ticker (committed buys, arbitrary fees f1 f2) yields a position with
s1+s2 shares whose average price is the cost-weighted mean of the two
prices; each committed cost contribution is shares times price, and the
fee arguments do not enter the cost basis. -/
theorem claim_weighted_average (st : TraderState) (now1 now2 : Timestamp)
    (ticker : String) (p1 p2 c1 c2 f1 f2 : ℚ) (s1 s2 : Nat)
    (hp1 : 0 < p1) (hp2 : 0 < p2) (h1 : s1 ≠ 0) (h2 : s2 ≠ 0)
    (h0 : getAssoc st.portfolio ticker = none) :
    getAssoc (buyCommit (buyCommit st now1 ticker p1 c1 s1 ((s1 : ℚ) * p1) f1)
        now2 ticker p2 c2 s2 ((s2 : ℚ) * p2) f2).portfolio ticker
      = some ⟨s1 + s2, ((s1 : ℚ) * p1 + (s2 : ℚ) * p2) / ((s1 : ℚ) + (s2 : ℚ))⟩ := by
  have hmid : getAssoc (buyCommit st now1 ticker p1 c1 s1 ((s1 : ℚ) * p1) f1).portfolio
      ticker = some ⟨s1, p1⟩ := by
    rw [getAssoc_buyCommit_self, h0]
  rw [getAssoc_buyCommit_self, hmid]
  dsimp only
  congr 2
  push_cast
  ring

def c3State : TraderState := freshState 1000000

theorem claim_weighted_average_witness :
    ((0 : ℚ) < 100 ∧ (0 : ℚ) < 110 ∧ (10 : Nat) ≠ 0 ∧ (5 : Nat) ≠ 0 ∧
        getAssoc c3State.portfolio "GAZP" = none) ∧
      getAssoc (buyCommit (buyCommit c3State (.dt ⟨2025, 6, 1, 10, 0, 0, 0⟩) "GAZP"
            100 (6 / 10) 10 ((10 : ℚ) * 100) 3)
          (.dt ⟨2025, 6, 1, 12, 0, 0, 0⟩) "GAZP" 110 (6 / 10) 5 ((5 : ℚ) * 110) 2).portfolio
          "GAZP"
        = some ⟨10 + 5, ((10 : ℚ) * 100 + (5 : ℚ) * 110) / ((10 : ℚ) + (5 : ℚ))⟩ :=
  ⟨⟨by norm_num, by norm_num, by decide, by decide, by decide⟩,
    claim_weighted_average c3State _ _ "GAZP" 100 110 (6 / 10) (6 / 10) 3 2 10 5
      (by norm_num) (by norm_num) (by decide) (by decide) (by decide)⟩

/-! ### C4: full characterization of _buy -/

/-- The claimed behavior of Buy(ticker, price, confidence, amount): the
available-amount formula, the three silent rejections, and the committed
effect on the balance and the trade log. -/
def C4Concl (st : TraderState) (prices : Prices) (now : Timestamp) (ticker : String)
    (price confidence amount : ℚ) : Prop :=
  let positionCap := get_portfolio_value st prices * max_position_size
  let currentPositionValue := (held st ticker : ℚ) * price
  let avail := buy_available st prices ticker price confidence (some amount)
  let s := buyFinalShares st.balance avail price
  avail = min (min amount (positionCap - currentPositionValue)) st.balance
  ∧ s = (if st.balance < (⌊avail / price⌋₊ : ℚ) * price +
        (⌊avail / price⌋₊ : ℚ) * price * trade_fee then
      ⌊st.balance * (9 / 10) / price⌋₊ else ⌊avail / price⌋₊)
  ∧ (positionCap ≤ currentPositionValue →
      buy st prices now ticker price confidence (some amount) = st)
  ∧ (¬ positionCap ≤ currentPositionValue → avail < price * 10 →
      buy st prices now ticker price confidence (some amount) = st)
  ∧ (¬ positionCap ≤ currentPositionValue → ¬ avail < price * 10 → s = 0 →
      buy st prices now ticker price confidence (some amount) = st)
  ∧ (¬ positionCap ≤ currentPositionValue → ¬ avail < price * 10 → s ≠ 0 →
      (buy st prices now ticker price confidence (some amount)).balance
          = st.balance - ((s : ℚ) * price + (s : ℚ) * price * trade_fee)
        ∧ (buy st prices now ticker price confidence (some amount)).trades
          = st.trades ++
              [{ timestamp := now
                 ticker := ticker
                 action := "BUY"
                 shares := s
                 price := price
                 amount := (s : ℚ) * price
                 fee := (s : ℚ) * price * trade_fee
                 profit := none
                 confidence := confidence
                 balance_after := st.balance - ((s : ℚ) * price + (s : ℚ) * price * trade_fee)
                 reason := none }])

/-- C4: _buy rejects exactly when the position cap is reached, the
available amount is below ten lots, or the final share count is zero;
otherwise it deducts exactly cost + fee and appends the BUY trade. -/
theorem claim_buy_sizing (st : TraderState) (prices : Prices) (now : Timestamp)
    (ticker : String) (price confidence amount : ℚ) (hp : 0 < price) :
    C4Concl st prices now ticker price confidence amount := by
  unfold C4Concl
  refine ⟨rfl, rfl, ?_, ?_, ?_, ?_⟩
  · intro h1
    unfold buy
    rw [if_pos h1]
  · intro h1 h2
    unfold buy
    rw [if_neg h1, if_pos h2]
  · intro h1 h2 h3
    unfold buy
    rw [if_neg h1, if_neg h2, if_pos h3]
  · intro h1 h2 h3
    have hbuy : buy st prices now ticker price confidence (some amount)
        = buyCommit st now ticker price confidence
            (buyFinalShares st.balance
              (buy_available st prices ticker price confidence (some amount)) price)
            ((buyFinalShares st.balance
              (buy_available st prices ticker price confidence (some amount)) price : ℚ) * price)
            ((buyFinalShares st.balance
              (buy_available st prices ticker price confidence (some amount)) price : ℚ)
              * price * trade_fee) := by
      unfold buy
      rw [if_neg h1, if_neg h2, if_neg h3]
    rw [hbuy]
    exact ⟨rfl, rfl⟩

/-! ### C2: MA20-break precedence -/

/-- The claimed outcome of a MA20 break for one ticker in one cycle:
the whole ticker evaluation is exactly the full-exit sell (so the MA5,
RSI, trailing-stop and stop-loss rules are skipped), exactly one SELL
trade with reason ma20_break and the full share count is appended, and
the position is closed. -/
def C2Concl (st : TraderState) (now : Timestamp) (hist : HistEnv) (ticker : String)
    (price : ℚ) (sharesHeld : Nat) : Prop :=
  checkTicker st now hist ticker price
      = sell st now ticker price 1 "ma20_break" none true
  ∧ (∃ t : Trade, (checkTicker st now hist ticker price).trades = st.trades ++ [t]
      ∧ t.action = "SELL" ∧ t.shares = sharesHeld ∧ t.reason = some "ma20_break")
  ∧ getAssoc (checkTicker st now hist ticker price).portfolio ticker = none

/-- C2: for an open position with a defined indicator snapshot, a price
below MA20 triggers exactly one trade for the ticker in the cycle — a
full exit with reason ma20_break — and every remaining rule (including
the RSI rule, whatever the RSI value) is skipped. -/
theorem claim_ma20_break_precedence (st : TraderState) (now : Timestamp)
    (hist : HistEnv) (ticker : String) (price ma5v ma20v rsiv : ℚ) (pos : Position)
    (hlk : getAssoc st.portfolio ticker = some pos) (hs : 0 < pos.shares)
    (hnd : (st.portfolio.map Prod.fst).Nodup)
    (hrow : hist ticker = some ⟨some ma5v, some ma20v, some rsiv⟩)
    (hbrk : price < ma20v) :
    C2Concl st now hist ticker price pos.shares := by
  have hck : checkTicker st now hist ticker price
      = sell st now ticker price 1 "ma20_break" none true := by
    unfold checkTicker
    rw [hlk, hrow]
    dsimp only
    rw [if_pos ⟨rfl, hbrk⟩]
  have hsell : sell st now ticker price 1 "ma20_break" none true
      = sellCommit st now ticker price 1 "ma20_break" pos pos.shares :=
    sell_all_eq st now ticker price 1 "ma20_break" none pos hlk hs
  refine ⟨hck, ?_, ?_⟩
  · rw [hck, hsell]
    exact ⟨_, rfl, rfl, rfl, rfl⟩
  · rw [hck, hsell]
    simp only [sellCommit]
    rw [if_pos le_rfl]
    exact getAssoc_delAssoc_self _ _ hnd

def c2State : TraderState :=
  { freshState 1000000 with portfolio := [("SBER", ⟨100, 95⟩)], balance := 990000 }

def c2Hist : HistEnv :=
  fun t => if t = "SBER" then some ⟨some 101, some 105, some 85⟩ else none

theorem claim_ma20_break_precedence_witness :
    (getAssoc c2State.portfolio "SBER" = some ⟨100, 95⟩ ∧ 0 < (100 : Nat) ∧
        (c2State.portfolio.map Prod.fst).Nodup ∧
        c2Hist "SBER" = some ⟨some 101, some 105, some 85⟩ ∧ (100 : ℚ) < 105) ∧
      C2Concl c2State (.dt ⟨2025, 6, 2, 10, 0, 0, 0⟩) c2Hist "SBER" 100 100 :=
  ⟨⟨by decide, by decide, by decide, by decide, by norm_num⟩,
    claim_ma20_break_precedence c2State (.dt ⟨2025, 6, 2, 10, 0, 0, 0⟩) c2Hist "SBER"
      100 101 105 85 ⟨100, 95⟩ (by decide) (by decide) (by decide) (by decide)
      (by norm_num)⟩

/-! ### C10: the MA5 and RSI partial exits -/

/-- The claimed behavior of the two partial-exit rules: the floors of
0.4 and 0.3 of the share count captured at the start of the ticker
evaluation, their zero thresholds, no-op behavior when the floor is
zero, and the combined effect of both rules firing (at most 70 percent
of the original count is sold, from the original count for both). -/
def C10Concl (st : TraderState) (now1 now2 : Timestamp) (ticker : String)
    (price ma5v rsiv : ℚ) (pos : Position) : Prop :=
  let s := pos.shares
  let f4 := ⌊(s : ℚ) * sell_ma5_fraction⌋₊
  let f3 := ⌊(s : ℚ) * sell_rsi_fraction⌋₊
  (f4 = 0 ↔ s ≤ 2)
  ∧ (f3 = 0 ↔ s ≤ 3)
  ∧ (f4 = 0 → ma5Rule st now1 ticker price s ma5v = st)
  ∧ (f3 = 0 → rsiRule st now2 ticker price s rsiv = st)
  ∧ (price < ma5v → sell_rsi_overbought < rsiv → 0 < f4 → 0 < f3 →
      getAssoc (rsiRule (ma5Rule st now1 ticker price s ma5v)
          now2 ticker price s rsiv).portfolio ticker
        = some ⟨s - f4 - f3, pos.avg_price⟩
      ∧ (f4 : ℚ) + (f3 : ℚ) ≤ (7 / 10) * (s : ℚ))

/-- C10: the MA5-break rule sells floor(shares*0.4) and the RSI rule
floor(shares*0.3) of the share count captured when the ticker evaluation
began, both rules firing sells at most 70 percent of that count, and a
zero floor (shares at most 2 for the 0.4 fraction, at most 3 for the
0.3 fraction) makes the rule a strict no-op. -/
theorem claim_partial_exit_fractions (st : TraderState) (now1 now2 : Timestamp)
    (ticker : String) (price ma5v rsiv : ℚ) (pos : Position)
    (hlk : getAssoc st.portfolio ticker = some pos) (hs : 0 < pos.shares) :
    C10Concl st now1 now2 ticker price ma5v rsiv pos := by
  unfold C10Concl
  dsimp only
  rw [floor_ma5_frac, floor_rsi_frac]
  refine ⟨by omega, by omega, ?_, ?_, ?_⟩
  · intro h0
    unfold ma5Rule
    rw [floor_ma5_frac]
    split_ifs with hc hpos
    · omega
    · rfl
    · rfl
  · intro h0
    unfold rsiRule
    rw [floor_rsi_frac]
    split_ifs with hc hpos
    · omega
    · rfl
    · rfl
  · intro hma5 hrsi hf4 hf3
    have h4le : 4 * pos.shares / 10 ≤ pos.shares := by omega
    have h4lt : 4 * pos.shares / 10 < pos.shares := by omega
    have e4 : ma5Rule st now1 ticker price pos.shares ma5v
        = sellCommit st now1 ticker price (8 / 10) "ma5_break" pos
            (4 * pos.shares / 10) := by
      unfold ma5Rule
      rw [floor_ma5_frac, if_pos ⟨rfl, hma5⟩, if_pos hf4]
      exact sell_some_eq st now1 ticker price (8 / 10) "ma5_break" _ pos hlk hf4 h4le
    have p1 : getAssoc (ma5Rule st now1 ticker price pos.shares ma5v).portfolio ticker
        = some ⟨pos.shares - 4 * pos.shares / 10, pos.avg_price⟩ := by
      rw [e4]
      simp only [sellCommit]
      rw [if_neg (not_le.mpr h4lt)]
      exact getAssoc_updAssoc_self _ _ _
    have h3le : 3 * pos.shares / 10 ≤ pos.shares - 4 * pos.shares / 10 := by omega
    have h3lt : 3 * pos.shares / 10 < pos.shares - 4 * pos.shares / 10 := by omega
    have e3 : rsiRule (ma5Rule st now1 ticker price pos.shares ma5v)
          now2 ticker price pos.shares rsiv
        = sellCommit (ma5Rule st now1 ticker price pos.shares ma5v) now2 ticker price
            (7 / 10) "rsi_overbought" ⟨pos.shares - 4 * pos.shares / 10, pos.avg_price⟩
            (3 * pos.shares / 10) := by
      unfold rsiRule
      rw [floor_rsi_frac, if_pos hrsi, if_pos hf3]
      exact sell_some_eq _ now2 ticker price (7 / 10) "rsi_overbought" _ _ p1 hf3 h3le
    constructor
    · rw [e3]
      simp only [sellCommit]
      rw [if_neg (not_le.mpr h3lt)]
      rw [getAssoc_updAssoc_self]
    · have h10 : 10 * (4 * pos.shares / 10 + 3 * pos.shares / 10) ≤ 7 * pos.shares := by
        omega
      have hc := (Nat.cast_le (α := ℚ)).mpr h10
      push_cast at hc
      linarith

def c10State : TraderState :=
  { freshState 1000000 with portfolio := [("LKOH", ⟨10, 6000⟩)], balance := 940000 }

theorem claim_partial_exit_fractions_witness :
    (getAssoc c10State.portfolio "LKOH" = some ⟨10, 6000⟩ ∧ 0 < (10 : Nat)) ∧
      C10Concl c10State (.dt ⟨2025, 6, 2, 11, 0, 0, 0⟩) (.dt ⟨2025, 6, 2, 11, 0, 1, 0⟩)
        "LKOH" 5800 5900 85 ⟨10, 6000⟩ :=
  ⟨⟨by decide, by decide⟩,
    claim_partial_exit_fractions c10State _ _ "LKOH" 5800 5900 85 ⟨10, 6000⟩
      (by decide) (by decide)⟩

def c4State : TraderState := freshState 1000000

theorem claim_buy_sizing_witness :
    (0 : ℚ) < 250 ∧
      C4Concl c4State [("SBER", 250)] (.dt ⟨2025, 6, 1, 10, 0, 0, 0⟩) "SBER"
        250 (8 / 10) 360000 :=
  ⟨by norm_num,
    claim_buy_sizing c4State [("SBER", 250)] (.dt ⟨2025, 6, 1, 10, 0, 0, 0⟩) "SBER"
      250 (8 / 10) 360000 (by norm_num)⟩

/-! ### C5 and C7: cycles with an empty candidate set -/

/-- Shared helper: _execute_trades returns the state unchanged as soon
as the candidate list is empty — before the buy loop, the hold loop and,
in particular, before _check_positions. -/
theorem execute_trades_eq_of_candidates_nil (st : TraderState) (now : Timestamp)
    (hist : HistEnv) (analysis : Analysis) (prices : Prices)
    (hc : buildCandidates analysis prices = []) :
    execute_trades st now hist analysis prices = st := by
  unfold execute_trades
  by_cases h1 : prices = []
  · rw [if_pos h1]
  · rw [if_neg h1, if_pos hc]

def c5State : TraderState :=
  { freshState 1000000 with portfolio := [("SBER", ⟨100, 95⟩)], balance := 990000 }

def c5Hist : HistEnv :=
  fun t => if t = "SBER" then some ⟨some 150, some 200, some 50⟩ else none

def c5Analysis : Analysis := ⟨[], none, none, 1 / 2⟩

def c5Prices : Prices := [("SBER", 100)]

def c5Now : Timestamp := .dt ⟨2025, 6, 2, 12, 0, 0, 0⟩

/-- C5 counterexample: with prices available, an open position whose
price is below MA20 (so the MA20-break exit would fire), and a
recommendation feed yielding no candidates, the cycle leaves the state
entirely unchanged even though evaluating the exit rules would have sold
— open positions ARE skipped when recommendations yield no candidates. -/
theorem counterexample_exits_skipped_on_empty_candidates :
    execute_trades c5State c5Now c5Hist c5Analysis c5Prices = c5State
    ∧ check_positions c5State c5Now c5Hist c5Prices ≠ c5State := by
  constructor
  · exact execute_trades_eq_of_candidates_nil c5State c5Now c5Hist c5Analysis c5Prices rfl
  · intro h
    have hl : (check_positions c5State c5Now c5Hist c5Prices).trades.length
        = c5State.trades.length := congrArg (fun s => s.trades.length) h
    exact absurd hl (by decide)

/-- C5 amended: when the candidate set is empty, _execute_trades returns
before the exit rules run, so no entry trades are made and the
risk-management exit rules are NOT evaluated either — open positions are
skipped for that cycle. -/
theorem amended_empty_candidates_skips_exits (st : TraderState) (now : Timestamp)
    (hist : HistEnv) (analysis : Analysis) (prices : Prices)
    (hc : buildCandidates analysis prices = []) :
    execute_trades st now hist analysis prices = st :=
  execute_trades_eq_of_candidates_nil st now hist analysis prices hc

theorem amended_empty_candidates_skips_exits_witness :
    buildCandidates c5Analysis c5Prices = [] ∧
      execute_trades c5State c5Now c5Hist c5Analysis c5Prices = c5State :=
  ⟨by decide,
    amended_empty_candidates_skips_exits c5State c5Now c5Hist c5Analysis c5Prices
      (by decide)⟩

/-- C7: a cycle whose candidate set is empty leaves the balance, the
positions map and the trade log exactly unchanged. -/
theorem claim_empty_candidates_noop (st : TraderState) (now : Timestamp)
    (hist : HistEnv) (analysis : Analysis) (prices : Prices)
    (hc : buildCandidates analysis prices = []) :
    (analyze_and_trade st now hist analysis prices).balance = st.balance
    ∧ (analyze_and_trade st now hist analysis prices).portfolio = st.portfolio
    ∧ (analyze_and_trade st now hist analysis prices).trades = st.trades := by
  unfold analyze_and_trade
  by_cases ht : st.is_trading = false
  · rw [if_pos ht]
    exact ⟨rfl, rfl, rfl⟩
  · rw [if_neg ht, execute_trades_eq_of_candidates_nil st now hist analysis prices hc]
    exact ⟨rfl, rfl, rfl⟩

def c7Analysis : Analysis := ⟨[], none, none, 1 / 2⟩

def c7Prices : Prices := [("GAZP", 50)]

def c7Hist : HistEnv := fun _ => none

def c7Now : Timestamp := .dt ⟨2025, 6, 3, 12, 0, 0, 0⟩

theorem claim_empty_candidates_noop_witness :
    buildCandidates c7Analysis c7Prices = [] ∧
      ((analyze_and_trade (freshState 1000000) c7Now c7Hist c7Analysis c7Prices).balance
          = (freshState 1000000).balance
        ∧ (analyze_and_trade (freshState 1000000) c7Now c7Hist c7Analysis c7Prices).portfolio
          = (freshState 1000000).portfolio
        ∧ (analyze_and_trade (freshState 1000000) c7Now c7Hist c7Analysis c7Prices).trades
          = (freshState 1000000).trades) :=
  ⟨by decide,
    claim_empty_candidates_noop (freshState 1000000) c7Now c7Hist c7Analysis c7Prices
      (by decide)⟩

/-! ### C6: the save/load round trip -/

def c6Now : Timestamp := .dt ⟨2025, 6, 3, 9, 30, 0, 0⟩

/-- The state after one committed buy of 100 SBER shares at 100 from a
fresh 1,000,000 balance (cost 10,000, fee 30): the trade record carries
the datetime timestamp that datetime.now() produced. -/
def c6State : TraderState :=
  { freshState 1000000 with
    balance := 989970
    portfolio := [("SBER", ⟨100, 100⟩)]
    trades := [{ timestamp := c6Now
                 ticker := "SBER"
                 action := "BUY"
                 shares := 100
                 price := 100
                 amount := 10000
                 fee := 30
                 profit := none
                 confidence := 8 / 10
                 balance_after := 989970
                 reason := none }] }

/-- C6 counterexample: saving and loading does not reproduce the trades
of a reachable state: json.dump(default=str) renders the datetime
timestamp as a string and _load_state leaves it a string, so the loaded
trade list differs from the original one. -/
theorem counterexample_round_trip_timestamp :
    (round_trip c6State c6Now).trades ≠ c6State.trades := by
  decide

/-- C6 amended: the round trip reproduces the balance, the positions
map, the trading flag, and the last 100 trades and last 50 snapshots in
their original order — except that every datetime timestamp is replaced
by its string rendering (the str-serialized form), so timestamps do not
survive the round trip losslessly. -/
theorem amended_round_trip_fields (st : TraderState) (now : Timestamp) :
    (round_trip st now).balance = st.balance
    ∧ (round_trip st now).portfolio = st.portfolio
    ∧ (round_trip st now).trades = (takeLast 100 st.trades).map serializeTrade
    ∧ (round_trip st now).performance_history
      = (takeLast 50 st.performance_history).map serializeSnap
    ∧ (round_trip st now).is_trading = st.is_trading :=
  ⟨rfl, rfl, rfl, rfl, rfl⟩

/-! ### C9: __init__ always re-enables trading -/

theorem is_trading_buy (st : TraderState) (prices : Prices) (now : Timestamp)
    (ticker : String) (price confidence : ℚ) (max_amount : Option ℚ) :
    (buy st prices now ticker price confidence max_amount).is_trading
      = st.is_trading := by
  unfold buy
  split_ifs <;> rfl

theorem is_trading_sell (st : TraderState) (now : Timestamp) (ticker : String)
    (price confidence : ℚ) (reason : String) (shares : Option Nat) (sell_all : Bool) :
    (sell st now ticker price confidence reason shares sell_all).is_trading
      = st.is_trading := by
  unfold sell
  cases getAssoc st.portfolio ticker with
  | none => rfl
  | some pos =>
      dsimp only
      split_ifs <;> rfl

theorem is_trading_ma5Rule (st : TraderState) (now : Timestamp) (ticker : String)
    (price : ℚ) (shares0 : Nat) (ma5 : ℚ) :
    (ma5Rule st now ticker price shares0 ma5).is_trading = st.is_trading := by
  unfold ma5Rule
  split_ifs <;> first | rfl | apply is_trading_sell

theorem is_trading_rsiRule (st : TraderState) (now : Timestamp) (ticker : String)
    (price : ℚ) (shares0 : Nat) (rsi : ℚ) :
    (rsiRule st now ticker price shares0 rsi).is_trading = st.is_trading := by
  unfold rsiRule
  split_ifs <;> first | rfl | apply is_trading_sell

theorem is_trading_stopLossRule (st : TraderState) (now : Timestamp) (ticker : String)
    (price avg0 : ℚ) :
    (stopLossRule st now ticker price avg0).is_trading = st.is_trading := by
  unfold stopLossRule
  split_ifs <;> first | rfl | apply is_trading_sell

theorem is_trading_trailingAndStop (st : TraderState) (now : Timestamp)
    (ticker : String) (price avg0 : ℚ) :
    (trailingAndStop st now ticker price avg0).is_trading = st.is_trading := by
  unfold trailingAndStop
  dsimp only
  split_ifs
  · rw [is_trading_sell]
  · rw [is_trading_stopLossRule]
  · rw [is_trading_stopLossRule]

theorem is_trading_checkTicker (st : TraderState) (now : Timestamp) (hist : HistEnv)
    (ticker : String) (price : ℚ) :
    (checkTicker st now hist ticker price).is_trading = st.is_trading := by
  unfold checkTicker
  cases getAssoc st.portfolio ticker with
  | none => rfl
  | some pos =>
      dsimp only
      cases hist ticker with
      | none => rfl
      | some row =>
          dsimp only
          cases row.ma5 with
          | none => cases row.ma20 <;> cases row.rsi <;> rfl
          | some a =>
              cases row.ma20 with
              | none => cases row.rsi <;> rfl
              | some b =>
                  cases row.rsi with
                  | none => rfl
                  | some c =>
                      dsimp only
                      split_ifs
                      · rw [is_trading_sell]
                      · rw [is_trading_trailingAndStop, is_trading_rsiRule,
                          is_trading_ma5Rule]

theorem foldl_is_trading {β : Type} (f : TraderState → β → TraderState)
    (h : ∀ s x, (f s x).is_trading = s.is_trading) :
    ∀ (l : List β) (s : TraderState), (List.foldl f s l).is_trading = s.is_trading
  | [], _ => rfl
  | x :: xs, s => by
      rw [List.foldl_cons, foldl_is_trading f h xs (f s x), h]

theorem is_trading_check_positions (st : TraderState) (now : Timestamp)
    (hist : HistEnv) (prices : Prices) :
    (check_positions st now hist prices).is_trading = st.is_trading := by
  unfold check_positions
  refine foldl_is_trading _ ?_ _ _
  intro s t
  cases getAssoc prices t with
  | none => rfl
  | some p => exact is_trading_checkTicker s now hist t p

theorem is_trading_buyLoopStep (prices : Prices) (now : Timestamp) (hist : HistEnv)
    (invest_capital total_conf_buy : ℚ) (s : TraderState) (c : Cand) :
    (buyLoopStep prices now hist invest_capital total_conf_buy s c).is_trading
      = s.is_trading := by
  unfold buyLoopStep
  cases getAssoc prices c.ticker with
  | none => rfl
  | some price =>
      dsimp only
      split_ifs <;> first | rfl | apply is_trading_buy

theorem is_trading_holdLoopStep (prices : Prices) (now : Timestamp) (hist : HistEnv)
    (hold_budget total_conf_hold : ℚ) (s : TraderState) (c : Cand) :
    (holdLoopStep prices now hist hold_budget total_conf_hold s c).is_trading
      = s.is_trading := by
  unfold holdLoopStep
  cases getAssoc s.portfolio c.ticker with
  | none => rfl
  | some _ =>
      dsimp only
      cases getAssoc prices c.ticker with
      | none => rfl
      | some price =>
          dsimp only
          split_ifs <;> first | rfl | apply is_trading_buy

theorem is_trading_execute_trades (st : TraderState) (now : Timestamp)
    (hist : HistEnv) (analysis : Analysis) (prices : Prices) :
    (execute_trades st now hist analysis prices).is_trading = st.is_trading := by
  unfold execute_trades
  dsimp only
  split_ifs
  · rfl
  · rfl
  · rfl
  · rw [is_trading_check_positions,
      foldl_is_trading _ (fun s c => is_trading_holdLoopStep prices now hist _ _ s c) _ _,
      foldl_is_trading _ (fun s c => is_trading_buyLoopStep prices now hist _ _ s c) _ _]

theorem is_trading_update_performance (st : TraderState) (prices : Prices)
    (now : Timestamp) :
    (update_performance st prices now).is_trading = st.is_trading := rfl

/-- C9: constructing the trader always ends with trading enabled and the
immediate analysis cycle runs unguarded: whatever tradingEnabled value
the persisted document holds (in particular false), __init__ calls
start_trading after _load_state, which sets the flag to true and runs
analyze_and_trade on the enabled state, so the persisted flag never
keeps the trader stopped across a restart. -/
theorem claim_init_enables_trading (initial_balance : ℚ) (doc : Option StateDoc)
    (now : Timestamp) (hist : HistEnv) (analysis : Analysis) (prices : Prices) :
    (initTrader initial_balance doc now hist analysis prices).is_trading = true
    ∧ initTrader initial_balance doc now hist analysis prices
      = update_performance
          (execute_trades { load_state initial_balance doc with is_trading := true }
            now hist analysis prices) prices now := by
  have h2 : initTrader initial_balance doc now hist analysis prices
      = update_performance
          (execute_trades { load_state initial_balance doc with is_trading := true }
            now hist analysis prices) prices now := rfl
  refine ⟨?_, h2⟩
  rw [h2, is_trading_update_performance, is_trading_execute_trades]

end Trader

namespace Backtester

/-! ### C8: the backtester always ends flat -/

/-- The claimed end-of-run behavior of Backtester.run: finalEquity is
the cash capital; a Sell signal on an open position zeroes the position
and credits position x close x (1 - commission); when the loop ends with
an open position there is a last bar at whose close the position is
force-closed the same way (with a SELL (close) trade for the full
position); when the loop ends flat nothing more is sold. -/
def C8Concl (initial_capital commission : ℚ) (prices : List Bar)
    (signals : List Int) : Prop :=
  (run initial_capital commission prices signals).final_equity
      = (run initial_capital commission prices signals).capital
  ∧ (∀ acc : BtAcc, ∀ b : Bar, 0 < acc.position →
      (btStep commission acc (b, -1)).position = 0
      ∧ (btStep commission acc (b, -1)).capital
          = acc.capital + (acc.position : ℚ) * b.close * (1 - commission))
  ∧ (0 < (btLoop initial_capital commission prices signals).position →
      ∃ b : Bar, prices.getLast? = some b
        ∧ (run initial_capital commission prices signals).capital
            = (btLoop initial_capital commission prices signals).capital
              + ((btLoop initial_capital commission prices signals).position : ℚ)
                * b.close * (1 - commission)
        ∧ (run initial_capital commission prices signals).trades
            = (btLoop initial_capital commission prices signals).trades ++
                [⟨b.time, "SELL (close)", b.close,
                  (btLoop initial_capital commission prices signals).position,
                  ((btLoop initial_capital commission prices signals).position : ℚ)
                    * b.close * (1 - commission)⟩])
  ∧ ((btLoop initial_capital commission prices signals).position = 0 →
      (run initial_capital commission prices signals).capital
        = (btLoop initial_capital commission prices signals).capital)

/-- C8: after Backtester.run no position remains open — a Sell signal
liquidates an open position fully at that bar's close with commission
deducted, any position still open after the last bar is force-closed at
the last close, and finalEquity equals the resulting cash capital. -/
theorem claim_run_closes_position (initial_capital commission : ℚ)
    (prices : List Bar) (signals : List Int)
    (hc : ∀ b ∈ prices, 0 < b.close) (hl : prices.length ≤ signals.length) :
    C8Concl initial_capital commission prices signals := by
  unfold C8Concl
  refine ⟨rfl, ?_, ?_, ?_⟩
  · intro acc b hpos
    unfold btStep
    dsimp only
    have h1 : ¬ ((-1 : Int) = 1 ∧ 0 < acc.capital) := by
      rintro ⟨h, -⟩
      norm_num at h
    rw [if_neg h1, if_pos ⟨rfl, hpos⟩]
    exact ⟨rfl, rfl⟩
  · intro hpos
    have hne : prices ≠ [] := by
      intro he
      rw [he] at hpos
      simp [btLoop] at hpos
    have hsome : prices.getLast?.isSome = true := List.getLast?_isSome.mpr hne
    cases hgl : prices.getLast? with
    | none =>
        rw [hgl] at hsome
        simp at hsome
    | some b =>
        refine ⟨b, rfl, ?_, ?_⟩
        · unfold run btClose
          rw [if_pos hpos, hgl]
        · unfold run btClose
          rw [if_pos hpos, hgl]
  · intro hzero
    unfold run btClose
    rw [if_neg (by rw [hzero]; exact lt_irrefl 0)]

def c8Prices : List Bar := [⟨1, 100⟩, ⟨2, 110⟩]

def c8Signals : List Int := [1, 0]

theorem claim_run_closes_position_witness :
    ((∀ b ∈ c8Prices, 0 < b.close) ∧ c8Prices.length ≤ c8Signals.length) ∧
      C8Concl 100000 (3 / 1000) c8Prices c8Signals :=
  ⟨⟨by decide, by decide⟩,
    claim_run_closes_position 100000 (3 / 1000) c8Prices c8Signals
      (by decide) (by decide)⟩

end Backtester
